import Mathlib

set_option maxHeartbeats 1000000

/-
Shallow embedding of the selective-disclosure core (SD-JWT style disclosure /
digest engine).  Source files embedded here:

  src/hash.ts                 -> SDHashAlg, SDDefaultHashAlg, translateHashAlg,
                                 requireSecondPreimageResistant, hash
  src/salt.ts                 -> createSalt, defaultCreateSalt
  src/selective-disclosure.ts -> DisclosureOptions, fillSDOptions
  src/SDArray.ts              -> arrayElementDigest, disclosureForArrayElement, sdArray
  src/SDObject.ts             -> SDProps / SDObject, pure, map, flatMap, prop, array,
                                 disclosureForObjectProps

External collaborators (node crypto, crypto.randomBytes, JSON.stringify) are
modelled as an explicit record of injected functions.  The base64url library is
modelled from the spec (base64url without padding over bytes).  Text produced
by a serializer is modelled as its byte sequence (a `List Nat` of bytes).
-/

namespace SelectiveDisclosure

/-- JSON-like values carried in payload claims. -/
inductive Value : Type where
  | null : Value
  | bool : Bool → Value
  | num : Int → Value
  | str : String → Value
  | arr : List Value → Value
  | obj : List (String × Value) → Value

/-- Hash algorithm identifiers from src/hash.ts (type SDHashAlg). -/
inductive SDHashAlg : Type where
  | sha256 | sha256_128 | sha256_120 | sha256_96 | sha256_64 | sha256_32
  | sha384 | sha512 | sha3_224 | sha3_256 | sha3_384 | sha3_512
  | blake2s_256 | blake2b_256 | blake2b_512 | k12_256 | k12_512
deriving DecidableEq

/-- IANA-registry name of each identifier (the string of the TS union type). -/
def SDHashAlg.ianaName : SDHashAlg → String
  | .sha256 => "sha-256"
  | .sha256_128 => "sha-256-128"
  | .sha256_120 => "sha-256-120"
  | .sha256_96 => "sha-256-96"
  | .sha256_64 => "sha-256-64"
  | .sha256_32 => "sha-256-32"
  | .sha384 => "sha-384"
  | .sha512 => "sha-512"
  | .sha3_224 => "sha3-224"
  | .sha3_256 => "sha3-256"
  | .sha3_384 => "sha3-384"
  | .sha3_512 => "sha3-512"
  | .blake2s_256 => "blake2s-256"
  | .blake2b_256 => "blake2b-256"
  | .blake2b_512 => "blake2b-512"
  | .k12_256 => "k12-256"
  | .k12_512 => "k12-512"

/-- src/hash.ts: `export const SDDefaultHashAlg: SDHashAlg = "sha-256";` -/
def SDDefaultHashAlg : SDHashAlg := SDHashAlg.sha256

/-- src/hash.ts: `const prohibitedHashAlgorithms = ["MD2", "MD4", "MD5", "SHA-1"];` -/
def prohibitedHashAlgorithms : List String := ["MD2", "MD4", "MD5", "SHA-1"]

/-- src/hash.ts: `const weakHashAlgorithms = ["sha-256-32", "sha-256-64"];` -/
def weakHashAlgorithms : List String := ["sha-256-32", "sha-256-64"]

/-- src/hash.ts `requireSecondPreimageResistant`.  A thrown Error is modelled as
`Except.error`; a console warning as an entry of the returned warning list. -/
def requireSecondPreimageResistant (hashAlg : String) : Except String (List String) :=
  if prohibitedHashAlgorithms.contains hashAlg then
    Except.error "The hash algorithms MD2, MD4, MD5, and SHA-1 revealed fundamental weaknesses and MUST NOT be used."
  else if weakHashAlgorithms.contains hashAlg then
    Except.ok ["A weak hash algorithm is used for disclosure digests."]
  else
    Except.ok []

/-- src/hash.ts `translateHashAlg`: switch translating the IANA identifier into
the OpenSSL name expected by crypto.createHash; k12 identifiers throw. -/
def translateHashAlg (namedHashAlg : SDHashAlg) : Except String String :=
  match namedHashAlg with
  | .sha256 => Except.ok "SHA256"
  | .sha256_128 => Except.ok "SHA256-128"
  | .sha256_120 => Except.ok "SHA256-120"
  | .sha256_96 => Except.ok "SHA256-96"
  | .sha256_64 => Except.ok "SHA256-64"
  | .sha256_32 => Except.ok "SHA256-32"
  | .sha384 => Except.ok "SHA3-384"
  | .sha512 => Except.ok "SHA512"
  | .sha3_224 => Except.ok "SHA3-224"
  | .sha3_256 => Except.ok "SHA3-256"
  | .sha3_384 => Except.ok "SHA384"
  | .sha3_512 => Except.ok "SHA3-512"
  | .blake2s_256 => Except.ok "BLAKE2s256"
  | .blake2b_256 => Except.ok "BLAKE2b256"
  | .blake2b_512 => Except.ok "BLAKE2b512"
  | .k12_256 => Except.error "Unsupported hash algorithm: k12-256."
  | .k12_512 => Except.error "Unsupported hash algorithm: k12-512."

/-- External collaborators injected into the embedding:
`createHashDigest name data` is node crypto's
`createHash(name).update(data).digest()` (bytes keyed by the OpenSSL name),
`randomBytes n` is crypto.randomBytes, and `jsonStringify` is JSON.stringify
with its output text viewed as its byte sequence. -/
structure Externals : Type where
  createHashDigest : String → String → List Nat
  randomBytes : Nat → List Nat
  jsonStringify : Value → List Nat

/-- src/hash.ts `hash`: translate the identifier, then digest.  Console
warnings surfaced during the call are collected in the first component of the
result; the body of the source function performs no policy check and emits no
warning, so that component is empty. -/
def hash (ext : Externals) (data : String) (hashAlg : SDHashAlg) :
    Except String (List String × List Nat) :=
  match translateHashAlg hashAlg with
  | Except.error msg => Except.error msg
  | Except.ok opensslName => Except.ok ([], ext.createHashDigest opensslName data)

/-- src/salt.ts `createSalt` (the sub-16-byte console advisory is not modelled;
no claim depends on it). -/
def createSalt (ext : Externals) (bytesOfSalt : Nat) : List Nat :=
  ext.randomBytes bytesOfSalt

/-- src/salt.ts `SDDefaultBytesOfSalt`. -/
def SDDefaultBytesOfSalt : Nat := 32

/-- src/salt.ts `defaultCreateSalt`. -/
def defaultCreateSalt (ext : Externals) : Unit → List Nat :=
  fun _ => createSalt ext SDDefaultBytesOfSalt

/-
Base64url (no padding), modelled from the spec: the base64url npm package is
an out-of-scope external collaborator ("Encoding: Disclosures and Digests are
base64url (no padding) over their respective byte payloads").
-/

/-- Base64url alphabet. -/
def base64UrlAlphabet : List Char :=
  ['A', 'B', 'C', 'D', 'E', 'F', 'G', 'H', 'I', 'J', 'K', 'L', 'M',
   'N', 'O', 'P', 'Q', 'R', 'S', 'T', 'U', 'V', 'W', 'X', 'Y', 'Z',
   'a', 'b', 'c', 'd', 'e', 'f', 'g', 'h', 'i', 'j', 'k', 'l', 'm',
   'n', 'o', 'p', 'q', 'r', 's', 't', 'u', 'v', 'w', 'x', 'y', 'z',
   '0', '1', '2', '3', '4', '5', '6', '7', '8', '9', '-', '_']

/-- Character for a sextet value. -/
def sextetChar (s : Nat) : Char :=
  base64UrlAlphabet.getD s 'A'

/-- Sextet value of a base64url character. -/
def sextetVal (c : Char) : Option Nat :=
  base64UrlAlphabet.findIdx? (fun x => x == c)

/-- Base64url-encode a byte list into characters (no padding). -/
def base64urlEncodeBytes : List Nat → List Char
  | [] => []
  | [b1] => [sextetChar (b1 / 4), sextetChar (b1 % 4 * 16)]
  | [b1, b2] => [sextetChar (b1 / 4), sextetChar (b1 % 4 * 16 + b2 / 16),
                 sextetChar (b2 % 16 * 4)]
  | b1 :: b2 :: b3 :: rest =>
      sextetChar (b1 / 4) :: sextetChar (b1 % 4 * 16 + b2 / 16) ::
      sextetChar (b2 % 16 * 4 + b3 / 64) :: sextetChar (b3 % 64) ::
      base64urlEncodeBytes rest

/-- Base64url-encode a byte list into a string. -/
def base64urlEncode (bs : List Nat) : String :=
  String.mk (base64urlEncodeBytes bs)

/-- Base64url-decode characters back into bytes. -/
def base64urlDecodeChars : List Char → Option (List Nat)
  | [] => some []
  | [_] => none
  | [c1, c2] =>
    match sextetVal c1, sextetVal c2 with
    | some s1, some s2 => some [s1 * 4 + s2 / 16]
    | _, _ => none
  | [c1, c2, c3] =>
    match sextetVal c1, sextetVal c2, sextetVal c3 with
    | some s1, some s2, some s3 =>
        some [s1 * 4 + s2 / 16, s2 % 16 * 16 + s3 / 4]
    | _, _, _ => none
  | c1 :: c2 :: c3 :: c4 :: rest =>
    match sextetVal c1, sextetVal c2, sextetVal c3, sextetVal c4,
          base64urlDecodeChars rest with
    | some s1, some s2, some s3, some s4, some bs =>
        some ((s1 * 4 + s2 / 16) :: (s2 % 16 * 16 + s3 / 4) :: (s3 % 4 * 64 + s4) :: bs)
    | _, _, _, _, _ => none

/-- Base64url-decode a string back into bytes. -/
def base64urlDecode (s : String) : Option (List Nat) :=
  base64urlDecodeChars s.data

/-
Options resolution, src/selective-disclosure.ts.
-/

/-- Serializer capability (`SDStringify`): serialize a value to text, the text
viewed as its byte sequence. -/
def SDStringify : Type := Value → List Nat

/-- Salt capability (`SDCreateSalt`). -/
def SDCreateSalt : Type := Unit → List Nat

/-- src/selective-disclosure.ts `DisclosureOpions` (partial options record). -/
structure DisclosureOptions : Type where
  hashAlg : Option SDHashAlg
  createSalt : Option SDCreateSalt
  stringify : Option SDStringify

/-- A `Required<DisclosureOpions>` record as returned by fillSDOptions. -/
structure FilledOptions : Type where
  hashAlg : SDHashAlg
  createSalt : SDCreateSalt
  stringify : SDStringify

/-- Payload of an SDObject: the reserved SDProps keys (`_sd_alg`, `_sd`) held
in dedicated optional slots, structurally composed with the user claims, which
are an association list of claim name to value. -/
structure Payload : Type where
  sd_alg : Option SDHashAlg
  sd : Option (List String)
  fields : List (String × Value)

/-- src/selective-disclosure.ts `fillSDOptions`: resolve the payload-declared
algorithm against the caller-declared one (error on a conflict of two declared
algorithms), defaulting to sha-256, the default salt source and JSON.stringify.
The thrown Error message interpolates both algorithm names; it is modelled by
the fixed leading text. -/
def fillSDOptions (ext : Externals) (sdProps : Payload) (options : DisclosureOptions) :
    Except String FilledOptions :=
  if sdProps.sd_alg.isSome ∧ options.hashAlg.isSome ∧ sdProps.sd_alg ≠ options.hashAlg then
    Except.error "Inconsistent hash algorithms."
  else
    Except.ok ⟨sdProps.sd_alg.getD (options.hashAlg.getD SDDefaultHashAlg),
               options.createSalt.getD (defaultCreateSalt ext),
               options.stringify.getD ext.jsonStringify⟩

/-
Array redaction engine, src/SDArray.ts.
-/

/-- src/SDArray.ts `SDArrayElemDigest` / `arrayElementDigest`: the digest
marker replacing a redacted array element. -/
def arrayElementDigest (digest : String) : Value :=
  Value.obj [("...", Value.str digest)]

/-- src/SDArray.ts `disclosureForArrayElement`: base64url of the serialized
`[salt, element]` tuple. -/
def disclosureForArrayElement (salt : String) (element : Value) (stringify : SDStringify) : String :=
  base64urlEncode (stringify (Value.arr [Value.str salt, element]))

/-- src/SDArray.ts `SDArrayResult`. -/
structure SDArrayResult : Type where
  sdArray : List Value
  disclosures : List String

/-- Worker for sdArray: the source's indexed `array.reduce`, walking the array
in order from a running index.  A redacted position draws a salt, builds the
array-element disclosure, digests it (hash may throw for k12 identifiers) and
emits the digest marker; any other position copies its element. -/
def sdArrayGo (ext : Externals) (opts : FilledOptions) (indices : List Int) :
    Nat → List Value → Except String SDArrayResult
  | _, [] => Except.ok ⟨[], []⟩
  | i, e :: es =>
    if indices.contains (i : Int) then
      let salt := base64urlEncode (opts.createSalt ())
      let disclosure := disclosureForArrayElement salt e opts.stringify
      match hash ext disclosure opts.hashAlg with
      | Except.error msg => Except.error msg
      | Except.ok hres =>
        match sdArrayGo ext opts indices (i + 1) es with
        | Except.error msg => Except.error msg
        | Except.ok rest =>
            Except.ok ⟨arrayElementDigest (base64urlEncode hres.2) :: rest.sdArray,
                       disclosure :: rest.disclosures⟩
    else
      match sdArrayGo ext opts indices (i + 1) es with
      | Except.error msg => Except.error msg
      | Except.ok rest => Except.ok ⟨e :: rest.sdArray, rest.disclosures⟩

/-- src/SDArray.ts `sdArray`. -/
def sdArray (ext : Externals) (array : List Value) (indices : List Int)
    (disclosureOptions : FilledOptions) : Except String SDArrayResult :=
  sdArrayGo ext disclosureOptions indices 0 array

/-
Object redaction engine, src/SDObject.ts.
-/

/-- src/SDObject.ts `SDObject<T>`: the immutable pair of payload and
accumulated disclosures. -/
structure SDObject : Type where
  sdObject : Payload
  disclosures : List String

/-- src/SDObject.ts `disclosureForObjectProps`: base64url of the serialized
`[salt, claimName, claimValue]` tuple. -/
def disclosureForObjectProps (salt : String) (claimName : String) (claimValue : Value)
    (stringify : SDStringify) : String :=
  base64urlEncode (stringify (Value.arr [Value.str salt, Value.str claimName, claimValue]))

/-- src/SDObject.ts `SDObject.pure`: `new SDObject({ ...object, _sd: [] }, [])`
(note the source writes an empty `_sd` collection into the lifted payload). -/
def SDObject.pure (object : List (String × Value)) : SDObject :=
  ⟨⟨none, some [], object⟩, []⟩

/-- src/SDObject.ts `SDObject.map`: transform the user payload, carrying the
reserved keys and the disclosures over unchanged. -/
def SDObject.map (self : SDObject) (f : Payload → List (String × Value)) : SDObject :=
  ⟨⟨self.sdObject.sd_alg, self.sdObject.sd, f self.sdObject⟩, self.disclosures⟩

/-- src/SDObject.ts `SDObject.flatMap`: apply f to the payload to obtain a
second SDObject, reject inconsistent hashing algorithms comparing both sides
after filling in the default, concatenate the `_sd` collections (defaulting a
missing one to empty) and the disclosures. -/
def SDObject.flatMap (self : SDObject) (f : Payload → SDObject) : Except String SDObject :=
  let pSdAlg := self.sdObject.sd_alg
  let pSd := self.sdObject.sd
  let newSdObj := f self.sdObject
  let nSdAlg := newSdObj.sdObject.sd_alg
  let nSd := newSdObj.sdObject.sd
  if pSdAlg.getD SDDefaultHashAlg ≠ nSdAlg.getD SDDefaultHashAlg then
    Except.error "Inconsistent hashing algorithms."
  else
    Except.ok ⟨⟨newSdObj.sdObject.sd_alg, some (pSd.getD [] ++ nSd.getD []),
                newSdObj.sdObject.fields⟩,
               self.disclosures ++ newSdObj.disclosures⟩

/-- Body of the first map pass of SDObject.prop: draw a salt, read the current
claim value (a claim absent from the payload reads as undefined, serialized
like null; the TS types guarantee presence), build the property disclosure. -/
def disclosureFor (filled : FilledOptions) (payload : Payload) (claimName : String) : String :=
  disclosureForObjectProps (base64urlEncode (filled.createSalt ())) claimName
    ((List.lookup claimName payload.fields).getD Value.null) filled.stringify

/-- Body of the second map pass of SDObject.prop: digest the disclosure (hash
may throw) and pair digest with disclosure. -/
def digestPair (ext : Externals) (hashAlg : SDHashAlg) (disclosure : String) :
    Except String (String × String) :=
  match hash ext disclosure hashAlg with
  | Except.error msg => Except.error msg
  | Except.ok hres => Except.ok (base64urlEncode hres.2, disclosure)

/-- src/SDObject.ts `SDObject.prop`: resolve options, build one disclosure per
claim name in order (salt, tuple, base64url), digest each disclosure, append
the digests to `_sd` and set `_sd_alg` to the resolved algorithm, delete the
named claims from the payload, and append the disclosures. -/
def SDObject.prop (ext : Externals) (self : SDObject) (claimNames : List String)
    (options : DisclosureOptions) : Except String SDObject :=
  match fillSDOptions ext self.sdObject options with
  | Except.error msg => Except.error msg
  | Except.ok filled =>
    match (claimNames.map (disclosureFor filled self.sdObject)).mapM
        (digestPair ext filled.hashAlg) with
    | Except.error msg => Except.error msg
    | Except.ok sdClaims =>
      Except.ok ⟨⟨some filled.hashAlg,
                  some (self.sdObject.sd.getD [] ++ sdClaims.map (fun a => a.1)),
                  self.sdObject.fields.filter (fun kv => !(claimNames.contains kv.1))⟩,
                 self.disclosures ++ sdClaims.map (fun a => a.2)⟩

/-- Replace the value at a key of an association list in place. -/
def setField (fields : List (String × Value)) (claimName : String) (v : Value) :
    List (String × Value) :=
  fields.map (fun kv => if kv.1 = claimName then (kv.1, v) else kv)

/-- src/SDObject.ts `SDObject.array`: resolve options, read the array at the
claim, delegate to sdArray, replace the property's value with the new sequence
and set `_sd_alg` to `options.hashAlg` — the raw caller option, not the
resolved algorithm (the source writes `_sd_alg: options.hashAlg`).  A non-array
claim value is ruled out by the TS type system; it is modelled as the
TypeError node would raise. -/
def SDObject.array (ext : Externals) (self : SDObject) (claimName : String)
    (indices : List Int) (options : DisclosureOptions) : Except String SDObject :=
  match fillSDOptions ext self.sdObject options with
  | Except.error msg => Except.error msg
  | Except.ok filledSDOptions =>
    let payload := self.sdObject
    match List.lookup claimName payload.fields with
    | some (Value.arr claimValueArray) =>
      match sdArray ext claimValueArray indices filledSDOptions with
      | Except.error msg => Except.error msg
      | Except.ok r =>
        Except.ok ⟨⟨options.hashAlg, payload.sd,
                    setField payload.fields claimName (Value.arr r.sdArray)⟩,
                   self.disclosures ++ r.disclosures⟩
    | _ => Except.error "TypeError"

/-
Derived helpers used only to state theorems.
-/

/-- Digest (base64url of the injected hash) of the disclosure built by prop
for one claim name. -/
def digestFor (ext : Externals) (osslAlg : String) (filled : FilledOptions)
    (payload : Payload) (claimName : String) : String :=
  base64urlEncode (ext.createHashDigest osslAlg (disclosureFor filled payload claimName))

/-- Concrete externals used by counterexamples and witnesses: a constant hash,
an empty salt source, an empty serializer. -/
def extW : Externals :=
  ⟨fun _ _ => [], fun _ => [], fun _ => []⟩

/-- Caller options record with no field set (the TS literal `{}`). -/
def emptyOptions : DisclosureOptions :=
  ⟨none, none, none⟩

/-- Concrete serializer for the C9 witness: it distinguishes the three-element
property tuple from the two-element array tuple. -/
def c9stringify : SDStringify := fun v =>
  match v with
  | Value.arr [_, _, _] => [0]
  | _ => [1]

/-- Concrete parser for the C9 witness, a left inverse of c9stringify on the
two tuples of interest. -/
def c9parse : List Nat → Option Value := fun bs =>
  if bs = [0] then some (Value.arr [Value.str "s", Value.str "n", Value.null])
  else if bs = [1] then some (Value.arr [Value.str "s", Value.null])
  else none

theorem sextetVal_sextetChar_fin : ∀ s : Fin 64, sextetVal (sextetChar s.1) = some s.1 := by decide

theorem sextetVal_sextetChar {s : Nat} (h : s < 64) : sextetVal (sextetChar s) = some s :=
  sextetVal_sextetChar_fin ⟨s, h⟩

theorem base64urlDecodeChars_encodeBytes :
    ∀ bs : List Nat, (∀ b ∈ bs, b < 256) →
      base64urlDecodeChars (base64urlEncodeBytes bs) = some bs := by
  intro bs
  induction bs using base64urlEncodeBytes.induct with
  | case1 =>
      intro _
      rfl
  | case2 b1 =>
      intro h
      have hb1 : b1 < 256 := h b1 (by simp)
      unfold base64urlEncodeBytes base64urlDecodeChars
      rw [sextetVal_sextetChar (by omega), sextetVal_sextetChar (by omega)]
      simp only [Option.some.injEq, List.cons.injEq, and_true]
      omega
  | case3 b1 b2 =>
      intro h
      have hb1 : b1 < 256 := h b1 (by simp)
      have hb2 : b2 < 256 := h b2 (by simp)
      unfold base64urlEncodeBytes base64urlDecodeChars
      rw [sextetVal_sextetChar (by omega), sextetVal_sextetChar (by omega),
          sextetVal_sextetChar (by omega)]
      simp only [Option.some.injEq, List.cons.injEq, and_true]
      constructor
      · omega
      · omega
  | case4 b1 b2 b3 rest ih =>
      intro h
      have hb1 : b1 < 256 := h b1 (by simp)
      have hb2 : b2 < 256 := h b2 (by simp)
      have hb3 : b3 < 256 := h b3 (by simp)
      have hrest : ∀ b ∈ rest, b < 256 := fun b hb => h b (by simp [hb])
      unfold base64urlEncodeBytes base64urlDecodeChars
      rw [sextetVal_sextetChar (by omega), sextetVal_sextetChar (by omega),
          sextetVal_sextetChar (by omega), sextetVal_sextetChar (by omega),
          ih hrest]
      simp only [Option.some.injEq, List.cons.injEq, and_true]
      refine ⟨by omega, by omega, by omega⟩

theorem base64urlDecode_encode (bs : List Nat) (h : ∀ b ∈ bs, b < 256) :
    base64urlDecode (base64urlEncode bs) = some bs :=
  base64urlDecodeChars_encodeBytes bs h

theorem filter_map_congr {α : Type} (l : List Nat) (p q : Nat → Bool) (f g : Nat → α)
    (hp : ∀ x, p x = q x) (hf : ∀ x, f x = g x) :
    (l.filter p).map f = (l.filter q).map g := by
  rw [funext hp, funext hf]

theorem range_succ_filter_map_pos {α : Type} (n : Nat) (P : Nat → Bool) (G : Nat → α)
    (h0 : P 0 = true) :
    ((List.range (n + 1)).filter P).map G =
      G 0 :: ((List.range n).filter (fun j => P (j + 1))).map (fun j => G (j + 1)) := by
  rw [List.range_succ_eq_map, List.filter_cons_of_pos h0, List.filter_map,
      List.map_cons, List.map_map]
  rfl

theorem range_succ_filter_map_neg {α : Type} (n : Nat) (P : Nat → Bool) (G : Nat → α)
    (h0 : P 0 = false) :
    ((List.range (n + 1)).filter P).map G =
      ((List.range n).filter (fun j => P (j + 1))).map (fun j => G (j + 1)) := by
  rw [List.range_succ_eq_map, List.filter_cons_of_neg (by simp [h0]), List.filter_map,
      List.map_map]
  rfl

theorem sdArrayGo_ok_spec (ext : Externals) (opts : FilledOptions) (indices : List Int) :
    ∀ (l : List Value) (i0 : Nat) (r : SDArrayResult),
      sdArrayGo ext opts indices i0 l = Except.ok r →
      r.sdArray.length = l.length ∧
      (∀ j, indices.contains ((i0 + j : Nat) : Int) = false →
          r.sdArray.getD j Value.null = l.getD j Value.null) ∧
      (∀ j, j < l.length → indices.contains ((i0 + j : Nat) : Int) = true →
          ∃ d, r.sdArray.getD j Value.null = arrayElementDigest d) ∧
      r.disclosures = ((List.range l.length).filter
            (fun j => indices.contains ((i0 + j : Nat) : Int))).map
          (fun j => disclosureForArrayElement (base64urlEncode (opts.createSalt ()))
                      (l.getD j Value.null) opts.stringify) := by
  intro l
  induction l with
  | nil =>
      intro i0 r h
      unfold sdArrayGo at h
      cases h
      refine ⟨rfl, fun j _ => rfl, fun j hj _ => absurd hj (by simp), rfl⟩
  | cons e es ih =>
      intro i0 r h
      unfold sdArrayGo at h
      by_cases hc : indices.contains ((i0 : Nat) : Int)
      · rw [if_pos hc] at h
        cases hh : hash ext (disclosureForArrayElement (base64urlEncode (opts.createSalt ()))
            e opts.stringify) opts.hashAlg with
        | error msg => simp only [hh] at h; exact Except.noConfusion h
        | ok hres =>
          simp only [hh] at h
          cases hrest : sdArrayGo ext opts indices (i0 + 1) es with
          | error msg => simp only [hrest] at h; exact Except.noConfusion h
          | ok rest =>
            simp only [hrest, Except.ok.injEq] at h
            subst h
            obtain ⟨ihlen, ihkeep, ihdig, ihdisc⟩ := ih (i0 + 1) rest hrest
            refine ⟨by simp [ihlen], ?_, ?_, ?_⟩
            · intro j hj
              cases j with
              | zero =>
                  rw [Nat.add_zero] at hj
                  rw [hj] at hc
                  exact Bool.noConfusion hc
              | succ j =>
                  have hshift : i0 + (j + 1) = (i0 + 1) + j := by omega
                  rw [hshift] at hj
                  rw [List.getD_cons_succ, List.getD_cons_succ]
                  exact ihkeep j hj
            · intro j hjlt hj
              cases j with
              | zero => exact ⟨base64urlEncode hres.2, rfl⟩
              | succ j =>
                  have hshift : i0 + (j + 1) = (i0 + 1) + j := by omega
                  rw [hshift] at hj
                  rw [List.getD_cons_succ]
                  exact ihdig j (by simpa using hjlt) hj
            · show _ :: rest.disclosures = _
              rw [List.length_cons,
                  range_succ_filter_map_pos es.length _ _ (by rw [Nat.add_zero]; exact hc)]
              congr 1
              rw [ihdisc]
              refine filter_map_congr _ _ _ _ _ (fun x => ?_) (fun x => ?_)
              · rw [show i0 + 1 + x = i0 + (x + 1) from by omega]
              · rw [List.getD_cons_succ]
      · rw [if_neg hc] at h
        cases hrest : sdArrayGo ext opts indices (i0 + 1) es with
        | error msg => simp only [hrest] at h; exact Except.noConfusion h
        | ok rest =>
          simp only [hrest, Except.ok.injEq] at h
          subst h
          obtain ⟨ihlen, ihkeep, ihdig, ihdisc⟩ := ih (i0 + 1) rest hrest
          refine ⟨by simp [ihlen], ?_, ?_, ?_⟩
          · intro j hj
            cases j with
            | zero => simp
            | succ j =>
                have hshift : i0 + (j + 1) = (i0 + 1) + j := by omega
                rw [hshift] at hj
                rw [List.getD_cons_succ, List.getD_cons_succ]
                exact ihkeep j hj
          · intro j hjlt hj
            cases j with
            | zero =>
                rw [Nat.add_zero] at hj
                exact absurd hj hc
            | succ j =>
                have hshift : i0 + (j + 1) = (i0 + 1) + j := by omega
                rw [hshift] at hj
                rw [List.getD_cons_succ]
                exact ihdig j (by simpa using hjlt) hj
          · show rest.disclosures = _
            rw [List.length_cons,
                range_succ_filter_map_neg es.length _ _
                  (by rw [Nat.add_zero]; exact Bool.eq_false_iff.mpr hc)]
            rw [ihdisc]
            refine filter_map_congr _ _ _ _ _ (fun x => ?_) (fun x => ?_)
            · rw [show i0 + 1 + x = i0 + (x + 1) from by omega]
            · rw [List.getD_cons_succ]

theorem mapM_ok_of_forall_ok {α β : Type} (f : α → Except String β) (g : α → β)
    (hf : ∀ a, f a = Except.ok (g a)) :
    ∀ l : List α, l.mapM f = Except.ok (l.map g) := by
  intro l
  induction l with
  | nil => rfl
  | cons a as ih =>
      rw [List.mapM_cons, hf a, List.map_cons]
      show List.cons (g a) <$> (as.mapM f) = _
      rw [ih]
      rfl

theorem mapM_ok_length {α β : Type} (f : α → Except String β) :
    ∀ (l : List α) (out : List β), l.mapM f = Except.ok out → out.length = l.length := by
  intro l
  induction l with
  | nil =>
      intro out h
      have h2 : (Except.ok [] : Except String (List β)) = Except.ok out := h
      cases h2
      rfl
  | cons a as ih =>
      intro out h
      rw [List.mapM_cons] at h
      cases hfa : f a with
      | error msg =>
          rw [hfa] at h
          exact Except.noConfusion (show (Except.error msg : Except String (List β)) = Except.ok out from h)
      | ok b =>
        rw [hfa] at h
        have h2 : List.cons b <$> (as.mapM f) = Except.ok out := h
        cases hrest : as.mapM f with
        | error msg =>
            rw [hrest] at h2
            exact Except.noConfusion (show (Except.error msg : Except String (List β)) = Except.ok out from h2)
        | ok bs =>
          rw [hrest] at h2
          have h3 : (Except.ok (b :: bs) : Except String (List β)) = Except.ok out := h2
          cases h3
          simp [ih bs hrest]

theorem fillSDOptions_ok_hashAlg (ext : Externals) (sdProps : Payload)
    (options : DisclosureOptions) (filled : FilledOptions)
    (h : fillSDOptions ext sdProps options = Except.ok filled) :
    filled.hashAlg = sdProps.sd_alg.getD (options.hashAlg.getD SDDefaultHashAlg) := by
  unfold fillSDOptions at h
  split at h
  · exact Except.noConfusion h
  · cases h
    rfl

theorem lookup_filter_not_contains (claimNames : List String) (k : String)
    (hk : claimNames.contains k = false) :
    ∀ fields : List (String × Value),
      List.lookup k (fields.filter (fun kv => !(claimNames.contains kv.1))) =
      List.lookup k fields := by
  intro fields
  induction fields with
  | nil => rfl
  | cons kv fs ih =>
      by_cases hkv : claimNames.contains kv.1
      · rw [List.filter_cons_of_neg (by rw [hkv]; simp)]
        have hne : (k == kv.1) = false := by
          cases hbe : k == kv.1 with
          | false => rfl
          | true =>
              have : k = kv.1 := by simpa using hbe
              rw [this] at hk
              rw [hk] at hkv
              exact Bool.noConfusion hkv
        rw [ih]
        cases kv with
        | mk k1 v1 =>
            simp only [List.lookup_cons]
            rw [hne]
      · rw [List.filter_cons_of_pos (by rw [Bool.eq_false_iff.mpr hkv]; rfl)]
        cases kv with
        | mk k1 v1 =>
            simp only [List.lookup_cons]
            cases hbe : k == k1 with
            | true => rfl
            | false => exact ih

theorem lookup_filter_contains (claimNames : List String) (k : String)
    (hk : claimNames.contains k = true) :
    ∀ fields : List (String × Value),
      List.lookup k (fields.filter (fun kv => !(claimNames.contains kv.1))) = none := by
  intro fields
  induction fields with
  | nil => rfl
  | cons kv fs ih =>
      by_cases hkv : claimNames.contains kv.1
      · rw [List.filter_cons_of_neg (by rw [hkv]; simp)]
        exact ih
      · rw [List.filter_cons_of_pos (by rw [Bool.eq_false_iff.mpr hkv]; rfl)]
        cases kv with
        | mk k1 v1 =>
            simp only [List.lookup_cons]
            cases hbe : k == k1 with
            | false => exact ih
            | true =>
                have : k = k1 := by simpa using hbe
                rw [this] at hk
                rw [hk] at hkv
                exact absurd rfl hkv

theorem digestPair_ok (ext : Externals) (hashAlg : SDHashAlg) (ossl : String)
    (ht : translateHashAlg hashAlg = Except.ok ossl) (disclosure : String) :
    digestPair ext hashAlg disclosure =
      Except.ok (base64urlEncode (ext.createHashDigest ossl disclosure), disclosure) := by
  unfold digestPair hash
  rw [ht]

theorem digestPair_error (ext : Externals) (hashAlg : SDHashAlg) (msg : String)
    (ht : translateHashAlg hashAlg = Except.error msg) (disclosure : String) :
    digestPair ext hashAlg disclosure = Except.error msg := by
  unfold digestPair hash
  rw [ht]

theorem prop_ok_spec (ext : Externals) (self : SDObject) (claimNames : List String)
    (options : DisclosureOptions) (r : SDObject)
    (h : SDObject.prop ext self claimNames options = Except.ok r) :
    ∃ filled ossl, fillSDOptions ext self.sdObject options = Except.ok filled ∧
      (claimNames ≠ [] → translateHashAlg filled.hashAlg = Except.ok ossl) ∧
      r = ⟨⟨some filled.hashAlg,
            some (self.sdObject.sd.getD [] ++
                  claimNames.map (digestFor ext ossl filled self.sdObject)),
            self.sdObject.fields.filter (fun kv => !(claimNames.contains kv.1))⟩,
           self.disclosures ++ claimNames.map (disclosureFor filled self.sdObject)⟩ := by
  unfold SDObject.prop at h
  cases hfill : fillSDOptions ext self.sdObject options with
  | error msg => rw [hfill] at h; exact Except.noConfusion h
  | ok filled =>
    simp only [hfill] at h
    cases ht : translateHashAlg filled.hashAlg with
    | ok ossl =>
      have hmap := mapM_ok_of_forall_ok (digestPair ext filled.hashAlg)
        (fun disclosure => (base64urlEncode (ext.createHashDigest ossl disclosure), disclosure))
        (digestPair_ok ext filled.hashAlg ossl ht)
        (claimNames.map (disclosureFor filled self.sdObject))
      rw [hmap] at h
      simp only [Except.ok.injEq] at h
      subst h
      refine ⟨filled, ossl, rfl, fun _ => ht, ?_⟩
      simp only [List.map_map]
      rfl
    | error msg =>
      cases claimNames with
      | nil =>
          have h2 : (Except.ok ⟨⟨some filled.hashAlg,
              some (self.sdObject.sd.getD [] ++ List.map (fun a => a.1) ([] : List (String × String))),
              self.sdObject.fields.filter (fun kv => !((([] : List String)).contains kv.1))⟩,
              self.disclosures ++ List.map (fun a => a.2) ([] : List (String × String))⟩ :
                Except String SDObject) = Except.ok r := h
          cases h2
          exact ⟨filled, "", rfl, fun hne => absurd rfl hne, rfl⟩
      | cons nm rest =>
          rw [List.map_cons, List.mapM_cons,
              digestPair_error ext filled.hashAlg msg ht] at h
          exact Except.noConfusion
            (show (Except.error msg : Except String SDObject) = Except.ok r from h)

theorem array_ok_spec (ext : Externals) (self : SDObject) (claimName : String)
    (indices : List Int) (options : DisclosureOptions) (r : SDObject)
    (h : SDObject.array ext self claimName indices options = Except.ok r) :
    ∃ filled l ar, fillSDOptions ext self.sdObject options = Except.ok filled ∧
      List.lookup claimName self.sdObject.fields = some (Value.arr l) ∧
      sdArray ext l indices filled = Except.ok ar ∧
      r = ⟨⟨options.hashAlg, self.sdObject.sd,
            setField self.sdObject.fields claimName (Value.arr ar.sdArray)⟩,
           self.disclosures ++ ar.disclosures⟩ := by
  unfold SDObject.array at h
  cases hfill : fillSDOptions ext self.sdObject options with
  | error msg => rw [hfill] at h; exact Except.noConfusion h
  | ok filled =>
    simp only [hfill] at h
    cases hlook : List.lookup claimName self.sdObject.fields with
    | none => simp only [hlook] at h; exact Except.noConfusion h
    | some v =>
      simp only [hlook] at h
      cases v with
      | arr l =>
        cases har : sdArray ext l indices filled with
        | error msg => simp only [har] at h; exact Except.noConfusion h
        | ok ar =>
          simp only [har, Except.ok.injEq] at h
          subst h
          exact ⟨filled, l, ar, rfl, rfl, har, rfl⟩
      | null => exact Except.noConfusion h
      | bool b => exact Except.noConfusion h
      | num n => exact Except.noConfusion h
      | str s => exact Except.noConfusion h
      | obj o => exact Except.noConfusion h

/-- C1: the array-property redaction SDObject.array does not set the payload's
algorithm-identifier key to the resolved algorithm; it sets it to the raw
caller option `options.hashAlg`.  Amended form: for every successful array
call, the resulting `_sd_alg` equals the caller-declared option (absent when
the caller declared none), regardless of the resolved algorithm. -/
theorem C1_array_sets_raw_caller_alg (ext : Externals) (self : SDObject)
    (claimName : String) (indices : List Int) (options : DisclosureOptions) (r : SDObject)
    (h : SDObject.array ext self claimName indices options = Except.ok r) :
    r.sdObject.sd_alg = options.hashAlg := by
  obtain ⟨filled, l, ar, _, _, _, hr⟩ := array_ok_spec ext self claimName indices options r h
  rw [hr]

/-- C1 counterexample: with no caller-declared algorithm the resolved
algorithm is sha-256, yet the array operation leaves `_sd_alg` absent rather
than setting it to the resolved algorithm. -/
theorem C1_counterexample :
    SDObject.array extW (SDObject.pure [("xs", Value.arr [])]) "xs" [] emptyOptions =
      Except.ok ⟨⟨none, some [], [("xs", Value.arr [])]⟩, []⟩ ∧
    (fillSDOptions extW (SDObject.pure [("xs", Value.arr [])]).sdObject emptyOptions).map
        (fun fo => fo.hashAlg) = Except.ok SDHashAlg.sha256 ∧
    (none : Option SDHashAlg) ≠ some SDHashAlg.sha256 :=
  ⟨rfl, rfl, fun hcon => Option.noConfusion hcon⟩

/-- C1 witness: a successful concrete array call whose resulting `_sd_alg` is
the caller-declared algorithm. -/
theorem C1_witness :
    SDObject.array extW (SDObject.pure [("xs", Value.arr [])]) "xs" []
        ⟨some SDHashAlg.sha512, none, none⟩ =
      Except.ok ⟨⟨some SDHashAlg.sha512, some [], [("xs", Value.arr [])]⟩, []⟩ ∧
    (⟨⟨some SDHashAlg.sha512, some [], [("xs", Value.arr [])]⟩, []⟩ : SDObject).sdObject.sd_alg =
      some SDHashAlg.sha512 :=
  ⟨rfl, C1_array_sets_raw_caller_alg extW (SDObject.pure [("xs", Value.arr [])]) "xs" []
      ⟨some SDHashAlg.sha512, none, none⟩
      ⟨⟨some SDHashAlg.sha512, some [], [("xs", Value.arr [])]⟩, []⟩ rfl⟩

/-- C2 amended: flatMap fails with the inconsistent-algorithm error exactly
when the two algorithms, each defaulted to sha-256 when undeclared, differ;
otherwise it succeeds with the merged value.  One-declared/one-default
therefore succeeds only when the declared algorithm is sha-256. -/
theorem C2_flatMap_alg_check (self : SDObject) (f : Payload → SDObject) :
    (SDObject.flatMap self f = Except.error "Inconsistent hashing algorithms." ↔
      self.sdObject.sd_alg.getD SDDefaultHashAlg ≠
        (f self.sdObject).sdObject.sd_alg.getD SDDefaultHashAlg) ∧
    (self.sdObject.sd_alg.getD SDDefaultHashAlg =
        (f self.sdObject).sdObject.sd_alg.getD SDDefaultHashAlg →
      SDObject.flatMap self f = Except.ok
        ⟨⟨(f self.sdObject).sdObject.sd_alg,
          some (self.sdObject.sd.getD [] ++ (f self.sdObject).sdObject.sd.getD []),
          (f self.sdObject).sdObject.fields⟩,
         self.disclosures ++ (f self.sdObject).disclosures⟩) := by
  simp only [SDObject.flatMap]
  by_cases hc : self.sdObject.sd_alg.getD SDDefaultHashAlg =
      (f self.sdObject).sdObject.sd_alg.getD SDDefaultHashAlg
  · rw [if_neg (fun hne => hne hc)]
    exact ⟨⟨fun hcon => Except.noConfusion hcon, fun hne => absurd hc hne⟩, fun _ => rfl⟩
  · rw [if_pos hc]
    exact ⟨⟨fun _ => hc, fun _ => rfl⟩, fun heq => absurd heq hc⟩

/-- C2 counterexample: the left value declares sha-512, the right is left to
the default; the claim says this composition succeeds, but flatMap fails with
the inconsistent-algorithm error. -/
theorem C2_counterexample :
    SDObject.flatMap ⟨⟨some SDHashAlg.sha512, none, []⟩, []⟩ (fun _ => SDObject.pure []) =
      Except.error "Inconsistent hashing algorithms." := rfl

/-- C2 witness: the amended theorem applied at a concrete one-declared
(sha-512) / one-default pair. -/
theorem C2_witness :
    SDObject.flatMap ⟨⟨some SDHashAlg.sha512, some ["d1"], []⟩, ["x"]⟩
        (fun _ => SDObject.pure [("k", Value.null)]) =
      Except.error "Inconsistent hashing algorithms." :=
  (C2_flatMap_alg_check ⟨⟨some SDHashAlg.sha512, some ["d1"], []⟩, ["x"]⟩
      (fun _ => SDObject.pure [("k", Value.null)])).1.mpr (by decide)

/-- C3: sdArray returns a sequence of the same length in which positions not
in the index list hold the original element, in-range listed positions hold a
digest marker, and the disclosures are emitted in ascending position order,
one per in-range listed index, so out-of-range indices produce neither a
marker nor a disclosure. -/
theorem C3_sdArray_shape (ext : Externals) (S : List Value) (I : List Int)
    (opts : FilledOptions) (r : SDArrayResult)
    (h : sdArray ext S I opts = Except.ok r) :
    r.sdArray.length = S.length ∧
    (∀ j : Nat, I.contains (j : Int) = false →
        r.sdArray.getD j Value.null = S.getD j Value.null) ∧
    (∀ j : Nat, j < S.length → I.contains (j : Int) = true →
        ∃ d, r.sdArray.getD j Value.null = arrayElementDigest d) ∧
    r.disclosures = ((List.range S.length).filter (fun j : Nat => I.contains (j : Int))).map
        (fun j : Nat => disclosureForArrayElement (base64urlEncode (opts.createSalt ()))
            (S.getD j Value.null) opts.stringify) := by
  have hspec := sdArrayGo_ok_spec ext opts I S 0 r h
  simpa only [Nat.zero_add] using hspec

/-- C3 witness: a concrete array with one in-range redacted index, one
out-of-range index and one negative index. -/
theorem C3_witness :
    sdArray extW [Value.str "a", Value.str "b"] [1, 5, -1]
        ⟨SDHashAlg.sha256, fun _ => [], fun _ => []⟩ =
      Except.ok ⟨[Value.str "a", arrayElementDigest ""], [""]⟩ ∧
    ([Value.str "a", arrayElementDigest ""] : List Value).length =
      ([Value.str "a", Value.str "b"] : List Value).length :=
  by
  have hgo : sdArray extW [Value.str "a", Value.str "b"] [1, 5, -1]
      ⟨SDHashAlg.sha256, fun _ => [], fun _ => []⟩ =
      Except.ok ⟨[Value.str "a", arrayElementDigest ""], [""]⟩ := rfl
  exact ⟨hgo, (C3_sdArray_shape extW [Value.str "a", Value.str "b"] [1, 5, -1]
      ⟨SDHashAlg.sha256, fun _ => [], fun _ => []⟩
      ⟨[Value.str "a", arrayElementDigest ""], [""]⟩ hgo).1⟩

/-- C4: fillSDOptions fails exactly when both the payload and the caller
declare an algorithm and the two differ; on success the resolved algorithm is
the payload's, else the caller's, else sha-256. -/
theorem C4_fillSDOptions_resolution (ext : Externals) (sdProps : Payload)
    (options : DisclosureOptions) :
    ((∃ msg, fillSDOptions ext sdProps options = Except.error msg) ↔
      (∃ p o, sdProps.sd_alg = some p ∧ options.hashAlg = some o ∧ p ≠ o)) ∧
    (∀ filled, fillSDOptions ext sdProps options = Except.ok filled →
      filled.hashAlg = sdProps.sd_alg.getD (options.hashAlg.getD SDDefaultHashAlg)) := by
  constructor
  · unfold fillSDOptions
    by_cases hc : sdProps.sd_alg.isSome ∧ options.hashAlg.isSome ∧
        sdProps.sd_alg ≠ options.hashAlg
    · simp only [if_pos hc]
      constructor
      · intro _
        obtain ⟨h1, h2, h3⟩ := hc
        obtain ⟨p, hp⟩ := Option.isSome_iff_exists.mp h1
        obtain ⟨o, ho⟩ := Option.isSome_iff_exists.mp h2
        exact ⟨p, o, hp, ho, fun hpo => h3 (by rw [hp, ho, hpo])⟩
      · intro _
        exact ⟨"Inconsistent hash algorithms.", rfl⟩
    · simp only [if_neg hc]
      constructor
      · rintro ⟨msg, hmsg⟩
        exact Except.noConfusion hmsg
      · rintro ⟨p, o, hp, ho, hpo⟩
        exact absurd ⟨by simp [hp], by simp [ho], by rw [hp, ho]; simpa using hpo⟩ hc
  · intro filled h
    exact fillSDOptions_ok_hashAlg ext sdProps options filled h

/-- C4 witness: with nothing declared anywhere the resolved algorithm is the
sha-256 default. -/
theorem C4_witness :
    (⟨SDHashAlg.sha256, defaultCreateSalt extW, extW.jsonStringify⟩ : FilledOptions).hashAlg =
      (⟨none, none, [("a", Value.null)]⟩ : Payload).sd_alg.getD
        (emptyOptions.hashAlg.getD SDDefaultHashAlg) :=
  (C4_fillSDOptions_resolution extW ⟨none, none, [("a", Value.null)]⟩ emptyOptions).2
    ⟨SDHashAlg.sha256, defaultCreateSalt extW, extW.jsonStringify⟩ rfl

/-- C5 amended: a prop call adds exactly one digest to the `_sd` collection
per claim name and appends the same number of disclosures; an array call
leaves `_sd` untouched and appends one disclosure per in-range redacted
index (the number of digest markers it introduces into the array), so for
array calls the digests are counted in the array, not in `_sd`. -/
theorem C5_per_call_accounting (ext : Externals) :
    (∀ (self : SDObject) (claimNames : List String) (options : DisclosureOptions) (r : SDObject),
      SDObject.prop ext self claimNames options = Except.ok r →
      (r.sdObject.sd.getD []).length = (self.sdObject.sd.getD []).length + claimNames.length ∧
      r.disclosures.length = self.disclosures.length + claimNames.length) ∧
    (∀ (self : SDObject) (claimName : String) (indices : List Int)
        (options : DisclosureOptions) (r : SDObject),
      SDObject.array ext self claimName indices options = Except.ok r →
      r.sdObject.sd = self.sdObject.sd ∧
      ∃ l, List.lookup claimName self.sdObject.fields = some (Value.arr l) ∧
        r.disclosures.length = self.disclosures.length +
          ((List.range l.length).filter (fun j : Nat => indices.contains (j : Int))).length) := by
  constructor
  · intro self claimNames options r h
    obtain ⟨filled, ossl, hfill, htr, hr⟩ := prop_ok_spec ext self claimNames options r h
    subst hr
    constructor
    · simp
    · simp
  · intro self claimName indices options r h
    obtain ⟨filled, l, ar, hfill, hlook, har, hr⟩ :=
      array_ok_spec ext self claimName indices options r h
    subst hr
    refine ⟨rfl, l, hlook, ?_⟩
    obtain ⟨-, -, -, hdisc⟩ := sdArrayGo_ok_spec ext filled indices l 0 ar har
    simp only [Nat.zero_add] at hdisc
    simp [hdisc]

/-- C5 counterexample: an array call that redacts one element appends one
disclosure but adds no digest to the `_sd` metadata collection (the digest
marker lives inside the array instead). -/
theorem C5_counterexample :
    SDObject.array extW ⟨⟨none, some [], [("xs", Value.arr [Value.str "a"])]⟩, []⟩ "xs" [0]
        emptyOptions =
      Except.ok ⟨⟨none, some [], [("xs", Value.arr [Value.obj [("...", Value.str "")]])]⟩, [""]⟩ ∧
    (some [] : Option (List String)) = (some [] : Option (List String)) ∧
    ([""] : List String).length = ([] : List String).length + 1 ∧
    (0 : Nat) ≠ 1 :=
  ⟨rfl, rfl, rfl, fun hcon => Nat.noConfusion hcon⟩

/-- C5 witness: the amended theorem applied to a concrete prop call and a
concrete array call. -/
theorem C5_witness :
    (SDObject.prop extW (SDObject.pure [("a", Value.str "v")]) ["a"] emptyOptions =
      Except.ok ⟨⟨some SDHashAlg.sha256, some [""], []⟩, [""]⟩) ∧
    ((⟨⟨some SDHashAlg.sha256, some [""], []⟩, [""]⟩ : SDObject).sdObject.sd.getD []).length =
      ((SDObject.pure [("a", Value.str "v")]).sdObject.sd.getD []).length + 1 ∧
    (⟨⟨some SDHashAlg.sha256, some [""], []⟩, [""]⟩ : SDObject).disclosures.length =
      (SDObject.pure [("a", Value.str "v")]).disclosures.length + 1 := by
  have hp : SDObject.prop extW (SDObject.pure [("a", Value.str "v")]) ["a"] emptyOptions =
      Except.ok ⟨⟨some SDHashAlg.sha256, some [""], []⟩, [""]⟩ := rfl
  have := (C5_per_call_accounting extW).1 (SDObject.pure [("a", Value.str "v")]) ["a"]
    emptyOptions ⟨⟨some SDHashAlg.sha256, some [""], []⟩, [""]⟩ hp
  exact ⟨hp, this.1, this.2⟩

/-- C6: a prop call removes exactly the named claims (lookups of other keys
are unchanged, lookups of named keys come back empty), preserves a previously
declared algorithm, preserves the existing `_sd` collection appending the new
digests in claim-name order, and appends the new disclosures after the
existing ones in that same order. -/
theorem C6_prop_frame (ext : Externals) (self : SDObject) (claimNames : List String)
    (options : DisclosureOptions) (r : SDObject)
    (h : SDObject.prop ext self claimNames options = Except.ok r) :
    (∀ k, claimNames.contains k = false →
        List.lookup k r.sdObject.fields = List.lookup k self.sdObject.fields) ∧
    (∀ k, claimNames.contains k = true → List.lookup k r.sdObject.fields = none) ∧
    (∀ a, self.sdObject.sd_alg = some a → r.sdObject.sd_alg = some a) ∧
    (∃ filled ossl, fillSDOptions ext self.sdObject options = Except.ok filled ∧
        (claimNames ≠ [] → translateHashAlg filled.hashAlg = Except.ok ossl) ∧
        r.sdObject.sd = some (self.sdObject.sd.getD [] ++
            claimNames.map (digestFor ext ossl filled self.sdObject)) ∧
        r.disclosures = self.disclosures ++
            claimNames.map (disclosureFor filled self.sdObject)) := by
  obtain ⟨filled, ossl, hfill, htr, hr⟩ := prop_ok_spec ext self claimNames options r h
  subst hr
  refine ⟨?_, ?_, ?_, filled, ossl, hfill, htr, rfl, rfl⟩
  · intro k hk
    exact lookup_filter_not_contains claimNames k hk self.sdObject.fields
  · intro k hk
    exact lookup_filter_contains claimNames k hk self.sdObject.fields
  · intro a ha
    have halg := fillSDOptions_ok_hashAlg ext self.sdObject options filled hfill
    rw [ha] at halg
    simp only [Option.getD_some] at halg
    show some filled.hashAlg = some a
    rw [halg]

/-- C6 witness: a concrete two-claim payload with one claim redacted; the
other claim's lookup is unchanged and the redacted claim's lookup is empty. -/
theorem C6_witness :
    (SDObject.prop extW (SDObject.pure [("a", Value.str "v"), ("b", Value.str "w")]) ["a"]
        emptyOptions =
      Except.ok ⟨⟨some SDHashAlg.sha256, some [""], [("b", Value.str "w")]⟩, [""]⟩) ∧
    List.lookup "b" ([("b", Value.str "w")] : List (String × Value)) =
      List.lookup "b" ([("a", Value.str "v"), ("b", Value.str "w")] : List (String × Value)) ∧
    List.lookup "a" ([("b", Value.str "w")] : List (String × Value)) = none := by
  have hp : SDObject.prop extW (SDObject.pure [("a", Value.str "v"), ("b", Value.str "w")]) ["a"]
      emptyOptions =
      Except.ok ⟨⟨some SDHashAlg.sha256, some [""], [("b", Value.str "w")]⟩, [""]⟩ := rfl
  have hframe := C6_prop_frame extW (SDObject.pure [("a", Value.str "v"), ("b", Value.str "w")])
    ["a"] emptyOptions ⟨⟨some SDHashAlg.sha256, some [""], [("b", Value.str "w")]⟩, [""]⟩ hp
  exact ⟨hp, hframe.1 "b" rfl, hframe.2.1 "a" rfl⟩

/-- C7 amended: pure lifts an object with no algorithm-identifier key but
with the digest-collection key present and bound to the empty collection, and
with no disclosures; the `_sd` reserved key is therefore present before any
property has been redacted. -/
theorem C7_pure_reserved_keys (object : List (String × Value)) :
    (SDObject.pure object).sdObject.sd_alg = none ∧
    (SDObject.pure object).sdObject.sd = some [] ∧
    (SDObject.pure object).disclosures = [] :=
  ⟨rfl, rfl, rfl⟩

/-- C7 counterexample: the claim says a lifted object contains neither
reserved key, but pure writes an (empty) `_sd` collection into the payload. -/
theorem C7_counterexample :
    (SDObject.pure [("a", Value.str "b")]).sdObject.sd ≠ none :=
  fun hcon => Option.noConfusion hcon

/-- C8: the policy function requireSecondPreimageResistant does fail hard on
the prohibited list and warn on the weak list, but no digest request invokes
it — hash digests with a weak algorithm without surfacing any warning or
performing any policy check (the function is dead code). -/
theorem C8_policy_never_invoked :
    requireSecondPreimageResistant "MD5" = Except.error
      "The hash algorithms MD2, MD4, MD5, and SHA-1 revealed fundamental weaknesses and MUST NOT be used." ∧
    requireSecondPreimageResistant "sha-256-32" = Except.ok
      ["A weak hash algorithm is used for disclosure digests."] ∧
    (∀ (ext : Externals) (data : String),
      hash ext data SDHashAlg.sha256_32 =
        Except.ok ([], ext.createHashDigest "SHA256-32" data)) :=
  ⟨rfl, rfl, fun _ _ => rfl⟩

/-- C9: base64url-decoding a property disclosure or an array-element
disclosure and parsing the text yields back exactly the tuple used to build
it, for any serializer paired with a parser that inverts it on that tuple
(as the default JSON stringifier is paired with its standard parser). -/
theorem C9_disclosure_roundtrip (salt claimName : String) (value : Value)
    (stringify : SDStringify) (parse : List Nat → Option Value)
    (hb3 : ∀ b ∈ stringify (Value.arr [Value.str salt, Value.str claimName, value]), b < 256)
    (hp3 : parse (stringify (Value.arr [Value.str salt, Value.str claimName, value])) =
        some (Value.arr [Value.str salt, Value.str claimName, value]))
    (hb2 : ∀ b ∈ stringify (Value.arr [Value.str salt, value]), b < 256)
    (hp2 : parse (stringify (Value.arr [Value.str salt, value])) =
        some (Value.arr [Value.str salt, value])) :
    (base64urlDecode (disclosureForObjectProps salt claimName value stringify)).bind parse =
      some (Value.arr [Value.str salt, Value.str claimName, value]) ∧
    (base64urlDecode (disclosureForArrayElement salt value stringify)).bind parse =
      some (Value.arr [Value.str salt, value]) := by
  constructor
  · show (base64urlDecode (base64urlEncode
        (stringify (Value.arr [Value.str salt, Value.str claimName, value])))).bind parse = _
    rw [base64urlDecode_encode _ hb3]
    exact hp3
  · show (base64urlDecode (base64urlEncode
        (stringify (Value.arr [Value.str salt, value])))).bind parse = _
    rw [base64urlDecode_encode _ hb2]
    exact hp2

/-- C9 witness: a concrete serializer-parser pair inverting each other on the
two concrete tuples. -/
theorem C9_witness :
    (base64urlDecode (disclosureForObjectProps "s" "n" Value.null c9stringify)).bind c9parse =
      some (Value.arr [Value.str "s", Value.str "n", Value.null]) ∧
    (base64urlDecode (disclosureForArrayElement "s" Value.null c9stringify)).bind c9parse =
      some (Value.arr [Value.str "s", Value.null]) :=
  C9_disclosure_roundtrip "s" "n" Value.null c9stringify c9parse
    (by decide) (by rfl) (by decide) (by rfl)

/-- C10: the identifier sha-384 is translated to the OpenSSL name of the
SHA3-384 function and sha3-384 to the SHA-2 SHA384 function (the two are
swapped), so a sha-384 digest request is served by SHA3-384 and vice versa;
the k12 identifiers make hash fail with the unsupported-algorithm error. -/
theorem C10_translate_swapped :
    translateHashAlg SDHashAlg.sha384 = Except.ok "SHA3-384" ∧
    translateHashAlg SDHashAlg.sha3_384 = Except.ok "SHA384" ∧
    (∀ (ext : Externals) (data : String),
      hash ext data SDHashAlg.sha384 = Except.ok ([], ext.createHashDigest "SHA3-384" data)) ∧
    (∀ (ext : Externals) (data : String),
      hash ext data SDHashAlg.k12_256 = Except.error "Unsupported hash algorithm: k12-256.") ∧
    (∀ (ext : Externals) (data : String),
      hash ext data SDHashAlg.k12_512 = Except.error "Unsupported hash algorithm: k12-512.") :=
  ⟨rfl, rfl, fun _ _ => rfl, fun _ _ => rfl, fun _ _ => rfl⟩

end SelectiveDisclosure
